import Mathlib

/-!
Verification development for the `gh-youtube_downloader` repository
(`src/downloader/main.py`), a thin command-line orchestration layer over an
external media extraction/download library.

The Python source is shallowly embedded: pure computations become Lean
functions; interactive prompting is modelled by an explicit list of scripted
prompt inputs; exceptions become an explicit `Exn` type threaded through
`Except`; the filesystem side effect of `os.makedirs` becomes explicit state
passing of an `FS` value.  Python truthiness of strings (empty string is
falsy) and of optional values (`None` is falsy) is translated explicitly at
each use site.
-/

namespace YTDL

/-- One entry of the format list built by `get_video_info`: a dictionary
with keys `format_id`, `resolution` and `height`. -/
structure FormatOption where
  format_id : String
  resolution : String
  height : Nat
deriving DecidableEq, Repr

/-- The dictionary with keys `title` and `formats` returned by
`get_video_info`. -/
structure VideoInfo where
  title : String
  formats : List FormatOption
deriving DecidableEq, Repr

/-- The fields of one raw stream dictionary from `info.get("formats", [])`
that `get_video_info` inspects: `f.get("vcodec")` and `f.get("height")`.
`none` models an absent key / `None` value. -/
structure StreamInfo where
  vcodec : Option String
  height : Option Nat
deriving DecidableEq, Repr

/-- The raw probe result `info` from `ydl.extract_info(url, download=False)`:
the fields read by `get_video_info` (`info.get("title")` and the stream
list). -/
structure RawInfo where
  title : Option String
  streams : List StreamInfo
deriving DecidableEq, Repr

/-- Python exceptions, as far as this program distinguishes them.
`other name isExc` stands for any further exception class; `isExc` records
whether it is a subclass of `Exception` (a `KeyboardInterrupt` is not). -/
inductive Exn where
  | valueError (msg : String)
  | keyboardInterrupt
  | other (name : String) (isExc : Bool)
deriving DecidableEq, Repr

/-- Whether an exception is an instance of the Python `Exception` class,
i.e. whether a bare `except Exception` handler catches it. -/
def isExceptionClass : Exn → Bool
  | .valueError _ => true
  | .keyboardInterrupt => false
  | .other _ b => b

/-- The text `str(e)` of an exception, as far as the embedding needs it. -/
def exnMsg : Exn → String
  | .valueError m => m
  | .keyboardInterrupt => ""
  | .other n _ => n

/-! ### Case-insensitive substring matching (`q.lower() in label.lower()`) -/

/-- Predicate `hasPre n h`: true when the character list `n` is an initial segment
of `h`. -/
def hasPre : List Char → List Char → Bool
  | [], _ => true
  | _ :: _, [] => false
  | a :: as, b :: bs => a == b && hasPre as bs

/-- Predicate `hasSub n h`: true when `n` occurs contiguously inside `h` —
the semantics of the Python `in` operator on strings, at the level of character
lists (in particular the empty list occurs in everything). -/
def hasSub (needle : List Char) : List Char → Bool
  | [] => needle.isEmpty
  | b :: bs => hasPre needle (b :: bs) || hasSub needle bs

/-- Lowercasing `s.lower()`, per character, as a character list. -/
def pyLower (s : String) : List Char :=
  s.data.map Char.toLower

/-- Stripping `s.strip()`: drop whitespace from both ends, as a character
list. -/
def pyStrip (s : String) : List Char :=
  ((s.data.dropWhile Char.isWhitespace).reverse.dropWhile Char.isWhitespace).reverse

/-- The test `quality_arg.lower() in fmt["resolution"].lower()`. -/
def substrCI (needle hay : String) : Bool :=
  hasSub (pyLower needle) (pyLower hay)

/-! ### Python `int(...)`

`parsePyInt` models `int(s)` on an ASCII decimal literal: surrounding
whitespace is stripped, an optional single `+`/`-` sign is accepted, and the
rest must be a non-empty run of decimal digits; every other string raises
`ValueError`, modelled as `none`. -/

/-- Value of a non-empty all-digit character run, `none` otherwise. -/
def digitsVal (ds : List Char) : Option Nat :=
  if ds ≠ [] ∧ ds.all (fun c => c.isDigit) then
    some (ds.foldl (fun acc c => acc * 10 + (c.toNat - 48)) 0)
  else none

/-- Conversion `int(s)`, returning `none` where Python raises
`ValueError`. -/
def parsePyInt (s : String) : Option Int :=
  match pyStrip s with
  | '+' :: ds => (digitsVal ds).map (fun n => (n : Int))
  | '-' :: ds => (digitsVal ds).map (fun n => -(n : Int))
  | ds => (digitsVal ds).map (fun n => (n : Int))

/-! ### `get_video_info`

The metadata-processing part of `get_video_info` is a pure function of the
raw probe result and of the `is_ffmpeg_available()` flag.  `sorted(heights,
reverse=True)` is embedded as insertion sort with the `≥` order; `heights`
being a Python `set` is embedded as `List.dedup` (the iteration order of a set
is irrelevant because the result is sorted). -/

/-- Insert into a descending-sorted list, keeping it descending. -/
def insertDesc (x : Nat) : List Nat → List Nat
  | [] => [x]
  | y :: ys => if y ≤ x then x :: y :: ys else y :: insertDesc x ys

/-- Sorting `sorted(heights, reverse=True)` on naturals. -/
def sortDesc : List Nat → List Nat
  | [] => []
  | x :: xs => insertDesc x (sortDesc xs)

/-- The height a stream contributes to the `heights` set:
`if f.get("vcodec") != "none" and f.get("height"): heights.add(...)`.
A missing `vcodec` key (`none`) differs from the string `"none"`, so it
counts as video; a missing or zero height is falsy and contributes
nothing. -/
def candHeight (s : StreamInfo) : Option Nat :=
  if s.vcodec ≠ some "none" then
    match s.height with
    | some h => if h ≠ 0 then some h else none
    | none => none
  else none

/-- The `heights` set of the source, as a duplicate-free list. -/
def videoHeights (streams : List StreamInfo) : List Nat :=
  (streams.filterMap candHeight).dedup

/-- The per-height format-selection expression synthesized by
`get_video_info`, depending on ffmpeg availability. -/
def makeFormatId (hasFfmpeg : Bool) (h : Nat) : String :=
  if hasFfmpeg then
    "bestvideo[height<=" ++ toString h ++ "]+bestaudio/best[height<=" ++
      toString h ++ "]"
  else
    "best[height<=" ++ toString h ++ "]"

/-- The format list built by `get_video_info`: one option per distinct
height in descending order, then the synthetic "best" option inserted at
index 0 whenever the list is non-empty, with height `best_height + 1`. -/
def get_video_info_formats (streams : List StreamInfo) (hasFfmpeg : Bool) :
    List FormatOption :=
  let base := (sortDesc (videoHeights streams)).map fun h =>
    { format_id := makeFormatId hasFfmpeg h
      resolution := toString h ++ "p"
      height := h }
  match base with
  | [] => []
  | f :: _ =>
    { format_id := if hasFfmpeg then "bestvideo+bestaudio/best" else "best"
      resolution := "best (" ++ toString f.height ++ "p)"
      height := f.height + 1 } :: base

/-- Function `get_video_info` proper: the `try` block around `extract_info` and the
format processing.  The `extract` argument is the outcome of the
`ydl.extract_info(url, download=False)` call.  `except Exception as e`
wraps an `Exception`-class failure into
a `ValueError` whose message is "Failed to fetch video info: " followed
by the original message; an exception that is not
an `Exception` instance (a `KeyboardInterrupt`) is not caught and
propagates unwrapped. -/
def get_video_info (extract : Except Exn RawInfo) (hasFfmpeg : Bool) :
    Except Exn VideoInfo :=
  match extract with
  | .error e =>
    if isExceptionClass e then
      Except.error (Exn.valueError ("Failed to fetch video info: " ++ exnMsg e))
    else Except.error e
  | .ok info =>
    Except.ok
      { title := info.title.getD "video"
        formats := get_video_info_formats info.streams hasFfmpeg }

/-! ### `select_quality`

Interactive input is modelled by a scripted list of prompt events: each
`input()` call consumes the next event, which is either an entered line or
a `KeyboardInterrupt` raised during the call. -/

/-- One event at the interactive quality prompt. -/
inductive PromptInput where
  | line (s : String)
  | interrupt
deriving DecidableEq, Repr

/-- Which exceptions the `except (ValueError, KeyboardInterrupt)` clause of
the loop
clause catches. -/
def loopHandles : Exn → Bool
  | .valueError _ => true
  | .keyboardInterrupt => true
  | .other _ _ => false

/-- The `try` block of one iteration of the interactive loop:
`choice = input(...).strip(); index = int(choice) - 1; if 0 <= index <
len(formats): return ...; print(range message)`.  `ok (some fid)` is the
`return`, `ok none` means "no return this round, loop again", `error` is a
raised exception. -/
def tryBody (formats : List FormatOption) : PromptInput → Except Exn (Option String)
  | .interrupt => Except.error Exn.keyboardInterrupt
  | .line s =>
    match parsePyInt s with
    | none => Except.error (Exn.valueError "invalid literal for int() with base 10")
    | some k =>
      let index := k - 1
      if h : 0 ≤ index ∧ index < (formats.length : Int) then
        Except.ok (some ((formats.get ⟨index.toNat, by omega⟩).format_id))
      else Except.ok none

/-- One iteration of the `while True` loop with its exception handler
applied. -/
def loopIter (formats : List FormatOption) (i : PromptInput) :
    Except Exn (Option String) :=
  match tryBody formats i with
  | Except.ok r => Except.ok r
  | Except.error e =>
    if loopHandles e then Except.ok none else Except.error e

/-- The `while True` interactive selection loop, run against the scripted
prompt events.  `ok none` means the script ran out before a selection was
made (the real loop would block on the next `input()`). -/
def interactiveLoop (formats : List FormatOption) :
    List PromptInput → Except Exn (Option String)
  | [] => Except.ok none
  | i :: rest =>
    match loopIter formats i with
    | Except.ok (some fid) => Except.ok (some fid)
    | Except.ok none => interactiveLoop formats rest
    | Except.error e => Except.error e

/-- The outcome of `select_quality`, distinguishing whether the returned
`format_id` was resolved from the CLI argument alone (`noPrompt`) or after
printing the option list and prompting (`viaPrompt`). -/
inductive SelOut where
  | noPrompt (fid : String)
  | viaPrompt (r : Option String)
deriving DecidableEq, Repr

/-- The CLI-argument phase of `select_quality` (the `if quality_arg:`
block): first a case-insensitive substring match against each
`resolution` label in list order, else the 1-based index fallback
`index = int(quality_arg) - 1` guarded by `0 <= index < len(formats)`;
`none` means "not found", which falls through to the interactive part. -/
def cliSelect (formats : List FormatOption) (q : String) : Option String :=
  match formats.find? (fun f => substrCI q f.resolution) with
  | some f => some f.format_id
  | none =>
    match parsePyInt q with
    | none => none
    | some k =>
      let index := k - 1
      if h : 0 ≤ index ∧ index < (formats.length : Int) then
        some ((formats.get ⟨index.toNat, by omega⟩).format_id)
      else none

/-- Function `select_quality(formats, quality_arg)`: raise on an empty list, then
try the CLI argument (`if quality_arg:` — `None` and the empty string are
falsy and skip that phase), then print the options and run the
interactive loop. -/
def select_quality (formats : List FormatOption) (quality_arg : Option String)
    (inputs : List PromptInput) : Except Exn SelOut :=
  if formats.isEmpty then
    Except.error (Exn.valueError "No suitable formats found")
  else
    let interactive : Except Exn SelOut :=
      (interactiveLoop formats inputs).map SelOut.viaPrompt
    match quality_arg with
    | none => interactive
    | some q =>
      if q = "" then interactive
      else
        match cliSelect formats q with
        | some fid => Except.ok (SelOut.noPrompt fid)
        | none => interactive

/-! ### `download_video` and `main` -/

/-- The filesystem as far as this program observes it: the set of existing
directories. -/
structure FS where
  dirs : List String
deriving DecidableEq, Repr

/-- The call `os.makedirs(download_dir, exist_ok=True)`: ensure the directory
exists; never fails when it already does. -/
def makedirs (d : String) (fs : FS) : FS :=
  ⟨d :: fs.dirs⟩

/-- Function `download_video(url, format_id, download_dir, title)`.  The
directory
is created first; then the collaborator call `ydl.download([url])` runs,
whose outcome is the `fetch` argument (`ok` = file written).  The
`except Exception` handler converts an `Exception`-class failure into the
return value `False`; an exception that is not an `Exception` instance is
not caught and propagates.  The returned pair is the filesystem after the
call and the outcome of that call. -/
def download_video (url format_id title download_dir : String)
    (fetch : Except Exn Unit) (fs : FS) : FS × Except Exn Bool :=
  let fs1 := makedirs download_dir fs
  match url, format_id, title, fetch with
  | _, _, _, Except.ok _ => (fs1, Except.ok true)
  | _, _, _, Except.error e =>
    if isExceptionClass e then (fs1, Except.ok false)
    else (fs1, Except.error e)

/-- The environment of `main`: parsed CLI arguments, the response scripted for
the URL prompt, ffmpeg availability, the outcome of the probe
(`extract_info`) call, the scripted quality-prompt events, the outcome of
the download call, the configured download directory and the initial
filesystem. -/
structure World where
  argUrl : Option String
  argQuality : Option String
  urlPromptResponse : String
  hasFfmpeg : Bool
  probe : Except Exn RawInfo
  qualityInputs : List PromptInput
  fetch : Except Exn Unit
  download_dir : String
  fs0 : FS
deriving Repr

/-- Observable steps of one `main` run, in order. -/
inductive Event where
  | urlPrompted
  | printedRequiredUrl
  | probeCalled
  | qualityPrompted
  | fetchCalled
deriving DecidableEq, Repr

/-- The top-level exception dispatch of `main`: `except KeyboardInterrupt:
return 130`, then `except Exception: return 1`; anything else (not an
`Exception` instance) escapes `main`, modelled as `none`. -/
def topHandle (e : Exn) : Option Nat :=
  if e = Exn.keyboardInterrupt then some 130
  else if isExceptionClass e then some 1 else none

/-- The tail of `main` after a format id has been selected: the
`download_video` call and `return 0 if success else 1`. -/
def afterSelect (w : World) (url title fid : String) (evs : List Event) :
    Option (Nat × List Event × FS) :=
  match download_video url fid title w.download_dir w.fetch w.fs0 with
  | (fs1, Except.ok true) => some (0, evs ++ [Event.fetchCalled], fs1)
  | (fs1, Except.ok false) => some (1, evs ++ [Event.fetchCalled], fs1)
  | (fs1, Except.error e) =>
    (topHandle e).map (fun c => (c, evs ++ [Event.fetchCalled], fs1))

/-- One full run of `main`: resolve the URL (`args.url`, else prompt and
strip; empty is fatal), probe, select quality, download, with the
top-level handlers around everything.  The result is `some (exit code,
events, final filesystem)`; `none` models a run that blocks forever
waiting for more interactive input, or an exception no handler in this
program catches. -/
def mainRun (w : World) : Option (Nat × List Event × FS) :=
  let step1 : String × List Event :=
    match w.argUrl with
    | some u =>
      if u = "" then (String.mk (pyStrip w.urlPromptResponse), [Event.urlPrompted])
      else (u, [])
    | none => (String.mk (pyStrip w.urlPromptResponse), [Event.urlPrompted])
  let url := step1.1
  let ev1 := step1.2
  if url = "" then some (1, ev1 ++ [Event.printedRequiredUrl], w.fs0)
  else
    let ev2 := ev1 ++ [Event.probeCalled]
    match get_video_info w.probe w.hasFfmpeg with
    | Except.error e => (topHandle e).map (fun c => (c, ev2, w.fs0))
    | Except.ok info =>
      match select_quality info.formats w.argQuality w.qualityInputs with
      | Except.error e => (topHandle e).map (fun c => (c, ev2, w.fs0))
      | Except.ok (SelOut.noPrompt fid) => afterSelect w url info.title fid ev2
      | Except.ok (SelOut.viaPrompt none) => none
      | Except.ok (SelOut.viaPrompt (some fid)) =>
        afterSelect w url info.title fid (ev2 ++ [Event.qualityPrompted])

/-- The process exit status of a run (`sys.exit(main())`). -/
def exitCode (w : World) : Option Nat :=
  (mainRun w).map (fun r => r.1)

instance : DecidableEq (Except Exn SelOut) := fun a b =>
  match a, b with
  | .ok x, .ok y => decidable_of_iff (x = y) (by simp)
  | .error x, .error y => decidable_of_iff (x = y) (by simp)
  | .ok _, .error _ => isFalse (by simp)
  | .error _, .ok _ => isFalse (by simp)

instance : DecidableEq (Except Exn Bool) := fun a b =>
  match a, b with
  | .ok x, .ok y => decidable_of_iff (x = y) (by simp)
  | .error x, .error y => decidable_of_iff (x = y) (by simp)
  | .ok _, .error _ => isFalse (by simp)
  | .error _, .ok _ => isFalse (by simp)

instance : DecidableEq (Except Exn (Option String)) := fun a b =>
  match a, b with
  | .ok x, .ok y => decidable_of_iff (x = y) (by simp)
  | .error x, .error y => decidable_of_iff (x = y) (by simp)
  | .ok _, .error _ => isFalse (by simp)
  | .error _, .ok _ => isFalse (by simp)

/-! ### Helper lemmas -/

theorem mem_insertDesc {x a : Nat} : ∀ {l : List Nat},
    a ∈ insertDesc x l ↔ a = x ∨ a ∈ l
  | [] => by simp [insertDesc]
  | y :: ys => by
    by_cases hxy : y ≤ x
    · simp only [insertDesc, if_pos hxy, List.mem_cons]
    · simp only [insertDesc, if_neg hxy, List.mem_cons,
        @mem_insertDesc x a ys]
      tauto

theorem pairwise_insertDesc (x : Nat) : ∀ {l : List Nat},
    l.Pairwise (fun a b => b ≤ a) → (insertDesc x l).Pairwise (fun a b => b ≤ a)
  | [], _ => by simp [insertDesc]
  | y :: ys, h => by
    rw [List.pairwise_cons] at h
    obtain ⟨hy, hys⟩ := h
    by_cases hxy : y ≤ x
    · simp only [insertDesc, if_pos hxy]
      refine List.pairwise_cons.mpr ⟨?_, List.pairwise_cons.mpr ⟨hy, hys⟩⟩
      intro b hb
      rcases List.mem_cons.mp hb with rfl | hb
      · exact hxy
      · exact le_trans (hy b hb) hxy
    · simp only [insertDesc, if_neg hxy]
      refine List.pairwise_cons.mpr ⟨?_, pairwise_insertDesc x hys⟩
      intro b hb
      rcases mem_insertDesc.mp hb with rfl | hb
      · omega
      · exact hy b hb

theorem sortDesc_pairwise : ∀ (l : List Nat),
    (sortDesc l).Pairwise (fun a b => b ≤ a)
  | [] => List.Pairwise.nil
  | x :: xs => pairwise_insertDesc x (sortDesc_pairwise xs)

theorem insertDesc_perm (x : Nat) : ∀ (l : List Nat),
    List.Perm (insertDesc x l) (x :: l)
  | [] => List.Perm.refl _
  | y :: ys => by
    by_cases hxy : y ≤ x
    · simp [insertDesc, hxy]
    · simp only [insertDesc, if_neg hxy]
      exact ((insertDesc_perm x ys).cons y).trans (List.Perm.swap x y ys)

theorem sortDesc_perm : ∀ (l : List Nat), List.Perm (sortDesc l) l
  | [] => List.Perm.refl _
  | x :: xs => (insertDesc_perm x (sortDesc xs)).trans ((sortDesc_perm xs).cons x)

/-- Lemma: `List.find?` returns the entry at the first index whose predicate
holds. -/
theorem find_first_match {α : Type} (p : α → Bool) :
    ∀ (l : List α) (i : Nat) (hi : i < l.length),
      p (l.get ⟨i, hi⟩) = true →
      (∀ j (hj : j < i), p (l.get ⟨j, Nat.lt_trans hj hi⟩) = false) →
      l.find? p = some (l.get ⟨i, hi⟩)
  | [], i, hi, _, _ => absurd hi (by simp)
  | a :: as, 0, _, hp, _ => by
    simpa using List.find?_cons_of_pos as (by simpa using hp)
  | a :: as, i + 1, hi, hp, hfirst => by
    have ha : p a = false := by
      simpa using hfirst 0 (Nat.succ_pos i)
    have tail := find_first_match p as i (by simpa using hi)
      (by simpa using hp)
      (fun j hj => by simpa using hfirst (j + 1) (by omega))
    rw [List.find?_cons_of_neg as (by simp [ha])]
    simpa using tail

/-- Every exception raised inside the `try` block of the loop is one the
`except (ValueError, KeyboardInterrupt)` clause handles. -/
theorem tryBody_handled (formats : List FormatOption) (i : PromptInput) (e : Exn)
    (h : tryBody formats i = Except.error e) : loopHandles e = true := by
  cases i with
  | interrupt =>
    simp only [tryBody] at h
    cases h
    rfl
  | line s =>
    simp only [tryBody] at h
    split at h
    · cases h
      rfl
    · split at h <;> cases h

theorem loopIter_no_error (formats : List FormatOption) (i : PromptInput) :
    ∃ r, loopIter formats i = Except.ok r := by
  unfold loopIter
  cases htb : tryBody formats i with
  | ok r => exact ⟨r, rfl⟩
  | error e => exact ⟨none, by simp [tryBody_handled formats i e htb]⟩

theorem interactiveLoop_no_error (formats : List FormatOption) :
    ∀ (inputs : List PromptInput), ∃ r,
      interactiveLoop formats inputs = Except.ok r
  | [] => ⟨none, rfl⟩
  | i :: rest => by
    obtain ⟨r, hr⟩ := loopIter_no_error formats i
    cases r with
    | none =>
      obtain ⟨r2, hr2⟩ := interactiveLoop_no_error formats rest
      exact ⟨r2, by rw [interactiveLoop, hr, hr2]⟩
    | some fid => exact ⟨some fid, by rw [interactiveLoop, hr]⟩

/-- Filtering out elements the `filterMap` function already rejects does
not change the result. -/
theorem filterMap_filter_eq {α β : Type} (f : α → Option β) (p : α → Bool)
    (h : ∀ a, p a = false → f a = none) :
    ∀ l : List α, (l.filter p).filterMap f = l.filterMap f
  | [] => rfl
  | a :: l => by
    cases hp : p a with
    | true =>
      rw [List.filter_cons_of_pos hp, List.filterMap_cons, List.filterMap_cons]
      cases f a <;> simp [filterMap_filter_eq f p h l]
    | false =>
      rw [List.filter_cons_of_neg (by simp [hp]), List.filterMap_cons,
        h a hp, filterMap_filter_eq f p h l]

/-- The height column of the format list: the synthetic `best_height + 1`
followed by the sorted distinct heights. -/
theorem formats_heights (streams : List StreamInfo) (hf : Bool) :
    (get_video_info_formats streams hf).map FormatOption.height =
      match sortDesc (videoHeights streams) with
      | [] => []
      | h1 :: tl => (h1 + 1) :: h1 :: tl := by
  cases hhs : sortDesc (videoHeights streams) with
  | nil => simp [get_video_info_formats, hhs]
  | cons h1 tl =>
    simp only [get_video_info_formats, hhs, List.map_cons, List.map_map]
    rw [show (FormatOption.height ∘ fun h =>
      ({ format_id := makeFormatId hf h, resolution := toString h ++ "p",
         height := h } : FormatOption)) = id from rfl, List.map_id]

/-- The sorted height list is duplicate-free (it permutes the `dedup`). -/
theorem sortDesc_videoHeights_nodup (streams : List StreamInfo) :
    (sortDesc (videoHeights streams)).Nodup :=
  ((sortDesc_perm (videoHeights streams)).nodup_iff).mpr
    (List.nodup_dedup (streams.filterMap candHeight))

/-! ### Claim theorems -/

/-- C1 counterexample: the claim quantifies over every selector string
occurring case-insensitively as a substring of some `resolution` label.
The empty selector string is such a string (it occurs in `"1080p"`), yet
`select_quality` does not return that entry without prompting: the Python
test
`if quality_arg:` treats the empty string as falsy and goes straight to
the interactive prompt. -/
theorem select_quality_empty_selector_prompts :
    substrCI "" "1080p" = true ∧
    select_quality [⟨"f1", "1080p", 1080⟩] (some "") [] =
      Except.ok (SelOut.viaPrompt none) ∧
    select_quality [⟨"f1", "1080p", 1080⟩] (some "") [] ≠
      Except.ok (SelOut.noPrompt "f1") := by
  refine ⟨by decide, by decide, by decide⟩

/-- C1 (amended): for every non-empty format list and every NON-EMPTY
selector string that occurs case-insensitively as a substring of the
`resolution` label of the entry at index `i` and of no earlier entry,
`select_quality` returns the `format_id` of that entry with no prompt
issued. -/
theorem select_quality_substring_match (formats : List FormatOption)
    (q : String) (inputs : List PromptInput) (hq : q ≠ "")
    (i : Nat) (hi : i < formats.length)
    (hmatch : substrCI q (formats.get ⟨i, hi⟩).resolution = true)
    (hfirst : ∀ j (hj : j < i),
      substrCI q (formats.get ⟨j, Nat.lt_trans hj hi⟩).resolution = false) :
    select_quality formats (some q) inputs =
      Except.ok (SelOut.noPrompt (formats.get ⟨i, hi⟩).format_id) := by
  have hne : formats.isEmpty = false := by
    cases formats
    · simp at hi
    · rfl
  have hfind : formats.find? (fun f => substrCI q f.resolution) =
      some (formats.get ⟨i, hi⟩) :=
    find_first_match _ formats i hi hmatch hfirst
  simp [select_quality, hne, cliSelect, hfind, hq]

/-- C1 witness, end-to-end scenario A: selector `"720p"` against labels
`["1080p", "720p", "480p"]` returns the id of the 720p entry with no
prompt. -/
theorem select_quality_substring_match_witness :
    select_quality
      [⟨"a", "1080p", 1080⟩, ⟨"b", "720p", 720⟩, ⟨"c", "480p", 480⟩]
      (some "720p") [] = Except.ok (SelOut.noPrompt "b") :=
  select_quality_substring_match
    [⟨"a", "1080p", 1080⟩, ⟨"b", "720p", 720⟩, ⟨"c", "480p", 480⟩]
    "720p" [] (by decide) 1 (by decide) (by decide)
    (fun j hj => by
      have hj0 : j = 0 := by omega
      subst hj0
      show substrCI "720p" "1080p" = false
      decide)

/-- C2 counterexample: the claim promises the `(k-1)`-indexed entry for
every in-range numeric selector, but the substring phase runs first:
selector `"1"` against labels `["720p", "1080p"]` is the in-range index
`k = 1`, yet the code returns the id of the SECOND entry (`"1"` occurs in
`"1080p"`), not the id `"a"` of the first entry. -/
theorem select_quality_numeric_label_clash :
    parsePyInt "1" = some 1 ∧
    select_quality [⟨"a", "720p", 720⟩, ⟨"b", "1080p", 1080⟩] (some "1") [] =
      Except.ok (SelOut.noPrompt "b") ∧
    (SelOut.noPrompt "b" : SelOut) ≠ SelOut.noPrompt "a" := by
  refine ⟨by decide, by decide, by decide⟩

/-- C2 (amended): when the selector matches no `resolution` label as a
substring, a numeric selector `k` with `1 ≤ k ≤ N` selects the
`(k-1)`-indexed entry without prompting; a numeric selector outside
`[1, N]` falls through to the interactive prompt; and a non-numeric
selector (one `int()` rejects) likewise falls through to the interactive
prompt. -/
theorem select_quality_index_fallback (formats : List FormatOption)
    (q : String) (inputs : List PromptInput)
    (hnosub : ∀ f ∈ formats, substrCI q f.resolution = false)
    (hne : formats ≠ []) :
    (∀ (k : Int) (hk : parsePyInt q = some k) (h1 : 1 ≤ k)
      (h2 : k ≤ (formats.length : Int)),
      select_quality formats (some q) inputs =
        Except.ok (SelOut.noPrompt
          ((formats.get ⟨k.toNat - 1, by omega⟩).format_id))) ∧
    (∀ (k : Int), parsePyInt q = some k →
      (k < 1 ∨ (formats.length : Int) < k) →
      ∃ r, select_quality formats (some q) inputs =
        Except.ok (SelOut.viaPrompt r)) ∧
    (parsePyInt q = none →
      ∃ r, select_quality formats (some q) inputs =
        Except.ok (SelOut.viaPrompt r)) := by
  have hfind : formats.find? (fun f => substrCI q f.resolution) = none :=
    List.find?_eq_none.mpr (fun x hx => by simp [hnosub x hx])
  have hemp : formats.isEmpty = false := by
    cases formats
    · exact absurd rfl hne
    · rfl
  have hqof : ∀ k : Int, parsePyInt q = some k → q ≠ "" := by
    intro k hk hq0
    rw [hq0, show parsePyInt "" = none from by decide] at hk
    cases hk
  obtain ⟨r, hr⟩ := interactiveLoop_no_error formats inputs
  refine ⟨?_, ?_, ?_⟩
  · intro k hk h1 h2
    have hq := hqof k hk
    have hrange : 0 ≤ k - 1 ∧ k - 1 < (formats.length : Int) := by omega
    have : cliSelect formats q =
        some ((formats.get ⟨k.toNat - 1, by omega⟩).format_id) := by
      simp only [cliSelect, hfind, hk, dif_pos hrange]
      have hidx : (k - 1).toNat = k.toNat - 1 := by omega
      simp only [hidx]
    simp [select_quality, hemp, hq, this]
  · intro k hk hout
    have hq := hqof k hk
    have hrange : ¬(0 ≤ k - 1 ∧ k - 1 < (formats.length : Int)) := by omega
    have hcli : cliSelect formats q = none := by
      simp only [cliSelect, hfind, hk, dif_neg hrange]
    refine ⟨r, ?_⟩
    simp [select_quality, hemp, hq, hcli, hr, Except.map]
  · intro hp
    by_cases hq : q = ""
    · refine ⟨r, ?_⟩
      simp [select_quality, hemp, hq, hr, Except.map]
    · have hcli : cliSelect formats q = none := by
        simp only [cliSelect, hfind, hp]
      refine ⟨r, ?_⟩
      simp [select_quality, hemp, hq, hcli, hr, Except.map]

/-- C2 witness: selector `"1"` against the single label `"720p"` (no
substring match) selects index 0; scenario B: selector `"5"` against a
3-entry list (labels contain no `"5"`) falls through to the interactive
prompt; and the non-numeric selector `"hd"`, matching no label, also
falls through to the interactive prompt. -/
theorem select_quality_index_fallback_witness :
    select_quality [⟨"a", "720p", 720⟩] (some "1") [] =
      Except.ok (SelOut.noPrompt "a") ∧
    (∃ r, select_quality
      [⟨"a", "1080p", 1080⟩, ⟨"b", "720p", 720⟩, ⟨"c", "480p", 480⟩]
      (some "5") [] = Except.ok (SelOut.viaPrompt r)) ∧
    ∃ r, select_quality
      [⟨"a", "1080p", 1080⟩, ⟨"b", "720p", 720⟩, ⟨"c", "480p", 480⟩]
      (some "hd") [] = Except.ok (SelOut.viaPrompt r) := by
  refine ⟨?_, ?_, ?_⟩
  · exact (select_quality_index_fallback [⟨"a", "720p", 720⟩] "1" []
      (by decide) (by decide)).1 1 (by decide) (by decide) (by decide)
  · exact (select_quality_index_fallback
      [⟨"a", "1080p", 1080⟩, ⟨"b", "720p", 720⟩, ⟨"c", "480p", 480⟩]
      "5" [] (by decide) (by decide)).2.1 5 (by decide) (by decide)
  · exact (select_quality_index_fallback
      [⟨"a", "1080p", 1080⟩, ⟨"b", "720p", 720⟩, ⟨"c", "480p", 480⟩]
      "hd" [] (by decide) (by decide)).2.2 (by decide)

/-- C4: for every probe result the format list of `get_video_info` is in
non-increasing `height` order, and whenever the list is non-empty its
first element is the synthetic "best" entry: its label starts with
`"best"`, a next entry exists, and the synthetic height is strictly
greater than the height of that next entry. -/
theorem get_video_info_formats_sorted (streams : List StreamInfo)
    (hasFfmpeg : Bool) :
    ((get_video_info_formats streams hasFfmpeg).map FormatOption.height).Pairwise
      (fun a b => b ≤ a) ∧
    (∀ b rest, get_video_info_formats streams hasFfmpeg = b :: rest →
      (∃ t, b.resolution = "best" ++ t) ∧
      ∃ n rs, rest = n :: rs ∧ n.height < b.height) := by
  have hp := sortDesc_pairwise (videoHeights streams)
  have hh := formats_heights streams hasFfmpeg
  cases hhs : sortDesc (videoHeights streams) with
  | nil =>
    rw [hhs] at hh
    constructor
    · rw [hh]
      exact List.Pairwise.nil
    · intro b rest hcons
      exfalso
      have : (get_video_info_formats streams hasFfmpeg).map FormatOption.height =
          [] := hh
      rw [hcons] at this
      cases this
  | cons h1 tl =>
    rw [hhs] at hp hh
    rw [List.pairwise_cons] at hp
    obtain ⟨hh1, htl⟩ := hp
    constructor
    · rw [hh]
      refine List.pairwise_cons.mpr ⟨?_, List.pairwise_cons.mpr ⟨hh1, htl⟩⟩
      intro a ha
      rcases List.mem_cons.mp ha with rfl | ha
      · omega
      · have := hh1 a ha
        omega
    · intro b rest hcons
      have hfs : get_video_info_formats streams hasFfmpeg =
          { format_id := if hasFfmpeg then "bestvideo+bestaudio/best" else "best"
            resolution := "best (" ++ toString h1 ++ "p)"
            height := h1 + 1 } ::
          { format_id := makeFormatId hasFfmpeg h1
            resolution := toString h1 ++ "p"
            height := h1 } ::
          tl.map (fun h =>
            { format_id := makeFormatId hasFfmpeg h
              resolution := toString h ++ "p"
              height := h }) := by
        simp [get_video_info_formats, hhs]
      rw [hfs] at hcons
      injection hcons with hb hrest
      subst hb
      constructor
      · refine ⟨" (" ++ toString h1 ++ "p)", ?_⟩
        show "best (" ++ toString h1 ++ "p)" =
          "best" ++ (" (" ++ toString h1 ++ "p)")
        simp only [String.append_assoc]
        rw [show ("best (" : String) = "best" ++ " (" from by decide,
          String.append_assoc]
      · exact ⟨_, _, hrest.symm, Nat.lt_succ_self h1⟩

/-- C4 witness: two video streams at 720 and 1080 produce the list
`[best (1081), 1080, 720]`, whose head is the synthetic entry. -/
theorem get_video_info_formats_sorted_witness :
    (∃ t, ({ format_id := "best", resolution := "best (1080p)",
             height := 1081 } : FormatOption).resolution = "best" ++ t) ∧
    ∃ n rs,
      [({ format_id := "best[height<=1080]", resolution := "1080p",
          height := 1080 } : FormatOption),
       { format_id := "best[height<=720]", resolution := "720p",
         height := 720 }] = n :: rs ∧
      n.height <
        ({ format_id := "best", resolution := "best (1080p)",
           height := 1081 } : FormatOption).height :=
  (get_video_info_formats_sorted
    [⟨some "avc", some 720⟩, ⟨some "avc", some 1080⟩] false).2
    { format_id := "best", resolution := "best (1080p)", height := 1081 }
    [{ format_id := "best[height<=1080]", resolution := "1080p",
       height := 1080 },
     { format_id := "best[height<=720]", resolution := "720p",
       height := 720 }]
    (by decide)

/-- C5: each pixel height appears at most once in the output of
`get_video_info` (the height column is duplicate-free), and audio-only
streams (`vcodec == "none"`) contribute nothing: removing them leaves
the output unchanged. -/
theorem get_video_info_formats_dedup (streams : List StreamInfo)
    (hasFfmpeg : Bool) :
    ((get_video_info_formats streams hasFfmpeg).map FormatOption.height).Nodup ∧
    get_video_info_formats
      (streams.filter (fun s => s.vcodec ≠ some "none")) hasFfmpeg =
      get_video_info_formats streams hasFfmpeg := by
  constructor
  · have hnd := sortDesc_videoHeights_nodup streams
    have hp := sortDesc_pairwise (videoHeights streams)
    have hh := formats_heights streams hasFfmpeg
    cases hhs : sortDesc (videoHeights streams) with
    | nil =>
      rw [hhs] at hh
      rw [hh]
      exact List.nodup_nil
    | cons h1 tl =>
      rw [hhs] at hh hnd hp
      rw [List.pairwise_cons] at hp
      obtain ⟨hh1, _⟩ := hp
      rw [hh]
      refine List.nodup_cons.mpr ⟨?_, hnd⟩
      intro hmem
      rcases List.mem_cons.mp hmem with h | h
      · omega
      · have := hh1 _ h
        omega
  · have hfil : videoHeights
        (streams.filter (fun s => s.vcodec ≠ some "none")) =
        videoHeights streams := by
      unfold videoHeights
      rw [filterMap_filter_eq candHeight _ ?_ streams]
      intro a ha
      have hv : a.vcodec = some "none" := by simpa using ha
      simp [candHeight, hv]
    unfold get_video_info_formats
    rw [hfil]

/-- C3: on an empty format list `select_quality` raises
`ValueError("No suitable formats found")` immediately, for every selector
argument and before consuming any prompt input. -/
theorem select_quality_empty_raises (quality_arg : Option String)
    (inputs : List PromptInput) :
    select_quality [] quality_arg inputs =
      Except.error (Exn.valueError "No suitable formats found") := rfl

/-- Lemma: `select_quality` can never surface a `KeyboardInterrupt`: inside
prompt loop it is caught by `except (ValueError, KeyboardInterrupt)` and
treated as invalid input. -/
theorem select_quality_never_interrupt (formats : List FormatOption)
    (quality_arg : Option String) (inputs : List PromptInput) :
    select_quality formats quality_arg inputs ≠
      Except.error Exn.keyboardInterrupt := by
  obtain ⟨r, hr⟩ := interactiveLoop_no_error formats inputs
  unfold select_quality
  cases hf : formats.isEmpty with
  | true => simp [hf]
  | false =>
    simp only [hf, Bool.false_eq_true, if_false, hr, Except.map]
    cases quality_arg with
    | none => simp
    | some q =>
      by_cases hq : q = ""
      · simp [hq]
      · cases hc : cliSelect formats q <;> simp [hq, hc]

/-- C6: a `KeyboardInterrupt` raised at the quality prompt is caught by
the `except (ValueError, KeyboardInterrupt)` clause of the loop and merely
causes a re-prompt — it never propagates out of `select_quality` — while
a `KeyboardInterrupt` reaching the top level of `main` returns exit status
130, distinct from the status 1 used for ordinary failures. -/
theorem interrupt_asymmetry :
    (∀ (formats : List FormatOption) (rest : List PromptInput),
      interactiveLoop formats (PromptInput.interrupt :: rest) =
        interactiveLoop formats rest) ∧
    (∀ (formats : List FormatOption) (quality_arg : Option String)
      (inputs : List PromptInput),
      select_quality formats quality_arg inputs ≠
        Except.error Exn.keyboardInterrupt) ∧
    (∀ (w : World) (u : String), w.argUrl = some u → u ≠ "" →
      w.probe = Except.error Exn.keyboardInterrupt →
      exitCode w = some 130) ∧
    (∀ (w : World) (u m : String), w.argUrl = some u → u ≠ "" →
      w.probe = Except.error (Exn.valueError m) →
      exitCode w = some 1) := by
  refine ⟨fun formats rest => rfl, select_quality_never_interrupt, ?_, ?_⟩
  · intro w u hau hu hpr
    unfold exitCode mainRun
    rw [hau, hpr]
    simp [hu, get_video_info, isExceptionClass, topHandle]
  · intro w u m hau hu hpr
    unfold exitCode mainRun
    rw [hau, hpr]
    simp [hu, get_video_info, isExceptionClass, topHandle, exnMsg]

/-- C6 witness: the four parts at concrete inputs. -/
theorem interrupt_asymmetry_witness :
    interactiveLoop [] [PromptInput.interrupt] = interactiveLoop [] [] ∧
    select_quality [] none [] ≠ Except.error Exn.keyboardInterrupt ∧
    exitCode { argUrl := some "u", argQuality := none, urlPromptResponse := "",
               hasFfmpeg := false, probe := Except.error Exn.keyboardInterrupt,
               qualityInputs := [], fetch := Except.ok (), download_dir := "d",
               fs0 := ⟨[]⟩ } = some 130 ∧
    exitCode { argUrl := some "u", argQuality := none, urlPromptResponse := "",
               hasFfmpeg := false, probe := Except.error (Exn.valueError "boom"),
               qualityInputs := [], fetch := Except.ok (), download_dir := "d",
               fs0 := ⟨[]⟩ } = some 1 :=
  ⟨interrupt_asymmetry.1 [] [],
   interrupt_asymmetry.2.1 [] none [],
   interrupt_asymmetry.2.2.1 _ "u" rfl (by decide) rfl,
   interrupt_asymmetry.2.2.2 _ "u" "boom" rfl (by decide) rfl⟩

/-- C7 counterexample: not EVERY exception from the download collaborator
is converted to `False`.  `except Exception` does not catch
`KeyboardInterrupt`, so a `KeyboardInterrupt` raised during
`ydl.download` propagates out of `download_video` instead of yielding
`False`. -/
theorem download_video_interrupt_propagates :
    (download_video "u" "f" "t" "d" (Except.error Exn.keyboardInterrupt)
      ⟨[]⟩).2 = Except.error Exn.keyboardInterrupt ∧
    (download_video "u" "f" "t" "d" (Except.error Exn.keyboardInterrupt)
      ⟨[]⟩).2 ≠ Except.ok false := by
  refine ⟨rfl, by decide⟩

/-- C7 (amended): every `Exception`-class exception raised by the
download collaborator is caught by `download_video`, converted to the
return value `False` and never re-raised, and `main` then exits with
status 1 through the normal return path. -/
theorem download_video_error_handling (e : Exn)
    (he : isExceptionClass e = true) :
    (∀ (url fid title dir : String) (fs : FS),
      download_video url fid title dir (Except.error e) fs =
        (makedirs dir fs, Except.ok false)) ∧
    (∀ (w : World) (u : String) (raw : RawInfo) (fid : String),
      w.argUrl = some u → u ≠ "" →
      w.probe = Except.ok raw →
      select_quality (get_video_info_formats raw.streams w.hasFfmpeg)
        w.argQuality w.qualityInputs = Except.ok (SelOut.noPrompt fid) →
      w.fetch = Except.error e →
      exitCode w = some 1) := by
  constructor
  · intro url fid title dir fs
    simp [download_video, he]
  · intro w u raw fid hau hu hpr hsel hfetch
    unfold exitCode mainRun
    rw [hau, hpr]
    simp only [get_video_info]
    rw [show (get_video_info_formats raw.streams w.hasFfmpeg) =
      ({ title := raw.title.getD "video",
         formats := get_video_info_formats raw.streams w.hasFfmpeg } :
        VideoInfo).formats from rfl] at hsel
    simp [hu, hsel, afterSelect, download_video, makedirs, hfetch, he]

/-- C7 witness: a `DownloadError` during fetch gives `False` from
`download_video` and exit status 1 from `main`. -/
theorem download_video_error_handling_witness :
    download_video "u" "f" "t" "d"
      (Except.error (Exn.other "DownloadError" true)) ⟨[]⟩ =
      (makedirs "d" ⟨[]⟩, Except.ok false) ∧
    exitCode { argUrl := some "u", argQuality := some "720p",
               urlPromptResponse := "", hasFfmpeg := false,
               probe := Except.ok ⟨some "t", [⟨some "avc", some 720⟩]⟩,
               qualityInputs := [],
               fetch := Except.error (Exn.other "DownloadError" true),
               download_dir := "d", fs0 := ⟨[]⟩ } = some 1 :=
  ⟨(download_video_error_handling (Exn.other "DownloadError" true) rfl).1
      "u" "f" "t" "d" ⟨[]⟩,
   (download_video_error_handling (Exn.other "DownloadError" true) rfl).2
      _ "u" ⟨some "t", [⟨some "avc", some 720⟩]⟩ "best"
      rfl (by decide) rfl (by decide) rfl⟩

/-- C8: with no URL flag (or an empty one) and a whitespace-only response
to the URL prompt, `main` prints the required-URL message and returns 1;
no probe and no download is attempted. -/
theorem main_empty_url (w : World)
    (hau : w.argUrl = none ∨ w.argUrl = some "")
    (hresp : pyStrip w.urlPromptResponse = []) :
    mainRun w =
      some (1, [Event.urlPrompted, Event.printedRequiredUrl], w.fs0) ∧
    Event.probeCalled ∉ [Event.urlPrompted, Event.printedRequiredUrl] ∧
    Event.fetchCalled ∉ [Event.urlPrompted, Event.printedRequiredUrl] := by
  refine ⟨?_, by decide, by decide⟩
  unfold mainRun
  rcases hau with h | h <;>
    rw [h] <;> simp [hresp]

/-- C8 witness, end-to-end scenario C: no `--url`, blank interactive
response. -/
theorem main_empty_url_witness :
    mainRun { argUrl := none, argQuality := none, urlPromptResponse := "  ",
              hasFfmpeg := true,
              probe := Except.ok ⟨some "t", [⟨some "avc", some 720⟩]⟩,
              qualityInputs := [], fetch := Except.ok (),
              download_dir := "d", fs0 := ⟨["x"]⟩ } =
      some (1, [Event.urlPrompted, Event.printedRequiredUrl], ⟨["x"]⟩) ∧
    Event.probeCalled ∉ [Event.urlPrompted, Event.printedRequiredUrl] ∧
    Event.fetchCalled ∉ [Event.urlPrompted, Event.printedRequiredUrl] :=
  main_empty_url _ (Or.inl rfl) (by decide)

/-- C9: when no raw stream both carries a video codec and reports a
non-zero height, `get_video_info` still returns normally, with an empty
format list and no synthetic "best" entry; on a successful probe it
never raises, and it raises exactly when the extraction call itself
failed. -/
theorem get_video_info_empty_ok :
    (∀ (raw : RawInfo) (hf : Bool),
      (∀ s ∈ raw.streams,
        s.vcodec = some "none" ∨ s.height = none ∨ s.height = some 0) →
      get_video_info (Except.ok raw) hf =
        Except.ok ⟨raw.title.getD "video", []⟩) ∧
    (∀ (raw : RawInfo) (hf : Bool), ∃ v,
      get_video_info (Except.ok raw) hf = Except.ok v) ∧
    (∀ (e : Exn) (hf : Bool), ∃ e2,
      get_video_info (Except.error e) hf = Except.error e2) := by
  refine ⟨?_, fun raw hf => ⟨_, rfl⟩, ?_⟩
  · intro raw hf hall
    have hcand : ∀ s ∈ raw.streams, candHeight s = none := by
      intro s hs
      rcases hall s hs with h | h | h <;> simp [candHeight, h]
    have hvh : videoHeights raw.streams = [] := by
      unfold videoHeights
      rw [List.filterMap_eq_nil_iff.mpr hcand]
      rfl
    simp [get_video_info, get_video_info_formats, hvh, sortDesc]
  · intro e hf
    unfold get_video_info
    cases he : isExceptionClass e <;> simp [he]

/-- C9 witness: an audio-only stream plus a video stream with no height
yield an empty format list. -/
theorem get_video_info_empty_ok_witness :
    get_video_info
      (Except.ok ⟨some "song", [⟨some "none", some 720⟩, ⟨some "avc", none⟩]⟩)
      true = Except.ok ⟨"song", []⟩ :=
  get_video_info_empty_ok.1
    ⟨some "song", [⟨some "none", some 720⟩, ⟨some "avc", none⟩]⟩ true
    (by decide)

/-- C10: `download_video` runs `os.makedirs(download_dir, exist_ok=True)`
before the collaborator call, so after every run — succeeding, failing,
or raising — the destination directory exists in the resulting
filesystem; the directory-creation side effect persists even when the
download fails and `False` is returned. -/
theorem download_video_makedirs (url fid title dir : String)
    (fetch : Except Exn Unit) (fs : FS) :
    (download_video url fid title dir fetch fs).1 = makedirs dir fs ∧
    dir ∈ (download_video url fid title dir fetch fs).1.dirs := by
  have h1 : (download_video url fid title dir fetch fs).1 = makedirs dir fs := by
    unfold download_video
    cases fetch with
    | ok v => rfl
    | error e => cases he : isExceptionClass e <;> simp [he]
  exact ⟨h1, by rw [h1]; exact List.mem_cons_self dir fs.dirs⟩

end YTDL
